import Mathlib

/-!
Shallow embedding of the ShortyQ URL-shortener encryption core
(`src/index.ts`, class `ShortyQ`), together with proofs of the spec's
claims about it.

External capabilities (the CryptoJS primitives `AES.encrypt`,
`AES.decrypt`, `PBKDF2`, `SHA3`, the `Math.sin` float function, the
`nanoid` generator and the WHATWG URL validator) are modelled as opaque
function parameters gathered in `CryptoPrims`; per-call side effects
(`Date.now()` reads, `WordArray.random` bytes, the random salts the
passphrase-mode AES calls consume) are gathered in `Entropy` and passed
explicitly, so every function below is a pure function of its inputs
exactly mirroring the statement order of the TypeScript source.
-/

namespace ShortyQ

/-- The `EncryptedData` interface: `{ data, noise, iv }`, three strings. -/
structure EncryptedData where
  data : String
  noise : String
  iv : String
deriving DecidableEq

/-- The `ShortyQOptions` interface; absent fields are `none`. -/
structure ShortyQOptions where
  saltRounds : Option Int
  urlLength : Option Int
  quantumSeed : Option Int
deriving DecidableEq

/-- JavaScript `a || d` on an optional integer: `undefined` and the falsy
number `0` both select the default `d`. -/
def jsOrInt (v : Option Int) (d : Int) : Int :=
  match v with
  | none => d
  | some x => if x = 0 then d else x

/-- The validated, immutable per-instance configuration (the three
`private readonly` fields of class `ShortyQ`). -/
structure Config where
  saltRounds : Int
  urlLength : Int
  quantumSeed : Int
deriving DecidableEq

/-- `MAX_URL_LENGTH` field of the class. -/
def MAX_URL_LENGTH : Int := 4096

/-- `MIN_URL_LENGTH` field of the class. -/
def MIN_URL_LENGTH : Int := 4

/-- The `ShortyQ` constructor: applies `||`-defaults (10, 8, random seed
`randSeed`), then validates the short-code length against [4, 100],
throwing the source's two error messages. -/
def mkShortyQ (options : ShortyQOptions) (randSeed : Int) : Except String Config :=
  let saltRounds := jsOrInt options.saltRounds 10
  let urlLength := jsOrInt options.urlLength 8
  if urlLength < MIN_URL_LENGTH then
    Except.error "URL length must be at least 4 characters"
  else if urlLength > 100 then
    Except.error "URL length cannot exceed 100 characters"
  else
    Except.ok { saltRounds := saltRounds, urlLength := urlLength,
                quantumSeed := jsOrInt options.quantumSeed randSeed }

/-- Lower-case hex digit for `n < 16` (as produced by
`Buffer.toString("hex")` and CryptoJS's hex stringifier). -/
def hexDigitChar (n : Nat) : Char :=
  if n < 10 then Char.ofNat (48 + n) else Char.ofNat (87 + n)

/-- Two-character lower-case hex rendering of one byte. -/
def hexByte (b : Nat) : String :=
  String.mk [hexDigitChar (b % 256 / 16), hexDigitChar (b % 256 % 16)]

/-- Hex rendering of a byte list, e.g. `Buffer.from(bytes).toString("hex")`. -/
def toHex : List Nat → String
  | [] => ""
  | b :: bs => hexByte b ++ toHex bs

/-- JavaScript truncation toward zero of a real (here rational) value. -/
def jsTrunc (q : ℚ) : Int :=
  if 0 ≤ q then ⌊q⌋ else ⌈q⌉

/-- The JavaScript `%` remainder operator on numbers:
`x % m = x - m * trunc(x / m)` (sign follows the dividend). -/
def jsRem (x m : ℚ) : ℚ :=
  x - m * ((jsTrunc (x / m) : Int) : ℚ)

/-- One byte of quantum noise: `Math.floor((x % 256))` stored into a
`Uint8Array` slot, whose ToUint8 coercion wraps the integer modulo 2^8
into 0..255.  Here `x` stands for the float product `sin(...) * 10000`. -/
def noiseByte (x : ℚ) : Nat :=
  ((⌊jsRem x 256⌋ : Int) % 256).toNat

/-- The 32 bytes produced by `generateQuantumNoise`:
`byte i = floor((sin(seed * i + timestamp) * 10000) % 256)` coerced to a
`Uint8Array` entry.  `sin` is the opaque float sine. -/
def generateQuantumNoiseBytes (sin : ℚ → ℚ) (quantumSeed timestamp : Int) : List Nat :=
  (List.range 32).map (fun (i : Nat) =>
    noiseByte (sin (((quantumSeed * (i : Int) + timestamp : Int) : ℚ)) * 10000))

/-- `generateQuantumNoise()`: the 32 noise bytes, hex-encoded. -/
def generateQuantumNoise (sin : ℚ → ℚ) (quantumSeed timestamp : Int) : String :=
  toHex (generateQuantumNoiseBytes sin quantumSeed timestamp)

/-- The opaque external primitives the class calls.  AES encryption in
CryptoJS passphrase mode consumes fresh random salt material, passed here
as an explicit `salt` argument; decryption reads the salt back out of the
ciphertext string, so it takes none.  Decryption (including the
`.toString(Utf8)` decode) can throw, hence `Except`. -/
structure CryptoPrims where
  sin : ℚ → ℚ
  aesEncryptIv : String → String → String → String → String
  aesDecryptIv : String → String → String → Except String String
  aesEncrypt : String → String → String → String
  aesDecrypt : String → String → Except String String
  pbkdf2 : String → String → Int → String
  sha3 : String → String
  nanoid : Int → String
  isValidUrl : String → Bool

/-- Per-call side-effect inputs of one `encryptUrl` call: the three
`Date.now()` reads (one per `generateQuantumNoise` call), the 16 random
IV bytes, and the salt material drawn by the three AES encryptions. -/
structure Entropy where
  t1 : Int
  t2 : Int
  t3 : Int
  ivBytes : Fin 16 → Nat
  salt1 : String
  salt2 : String
  salt3 : String

/-- `CryptoJS.lib.WordArray.random(16).toString()`: 16 random bytes,
hex-encoded. -/
def ivHexOf (e : Entropy) : String :=
  toHex ((List.finRange 16).map e.ivBytes)

/-- `encryptUrl`: three fresh noise blocks, a random IV, then the three
AES layers; returns `{ data, noise: n1+n2+n3, iv }`. -/
def encryptUrl (p : CryptoPrims) (cfg : Config) (e : Entropy) (url : String) :
    EncryptedData :=
  let layer1Noise := generateQuantumNoise p.sin cfg.quantumSeed e.t1
  let layer2Noise := generateQuantumNoise p.sin cfg.quantumSeed e.t2
  let layer3Noise := generateQuantumNoise p.sin cfg.quantumSeed e.t3
  let iv := ivHexOf e
  let encrypted1 := p.aesEncryptIv url layer1Noise iv e.salt1
  let secondKey := p.pbkdf2 layer2Noise iv cfg.saltRounds
  let encrypted2 := p.aesEncrypt encrypted1 secondKey e.salt2
  let finalKey := p.sha3 (layer3Noise ++ secondKey)
  let encrypted3 := p.aesEncrypt encrypted2 finalKey e.salt3
  { data := encrypted3,
    noise := layer1Noise ++ layer2Noise ++ layer3Noise,
    iv := iv }

/-- `s.slice(a, b)` on a string with integer `0 ≤ a ≤ b`. -/
def strSlice (s : String) (a b : Nat) : String :=
  String.mk ((s.toList.drop a).take (b - a))

/-- The body of `decryptUrl` after the field-presence guard: splits the
noise at `length / 3` and `length / 3 * 2` (JavaScript float division
followed by `slice`'s truncation, which for a non-negative length agrees
with integer division), recomputes the keys with the instance's
`saltRounds`, and undoes the three layers in reverse order.  Any failure
from a primitive aborts the chain, mirroring a thrown exception. -/
def decryptUrlE (p : CryptoPrims) (cfg : Config) (ed : EncryptedData) :
    Except String String := do
  let noise := ed.noise
  let layer1Noise := strSlice noise 0 (noise.length / 3)
  let layer2Noise := strSlice noise (noise.length / 3) (2 * noise.length / 3)
  let layer3Noise := strSlice noise (2 * noise.length / 3) noise.length
  let finalKey := p.sha3 (layer3Noise ++ p.pbkdf2 layer2Noise ed.iv cfg.saltRounds)
  let decrypted3 ← p.aesDecrypt ed.data finalKey
  let secondKey := p.pbkdf2 layer2Noise ed.iv cfg.saltRounds
  let decrypted2 ← p.aesDecrypt decrypted3 secondKey
  let decrypted1 ← p.aesDecryptIv decrypted2 layer1Noise ed.iv
  pure decrypted1

/-- `decryptUrl`: the falsy guard on the envelope and its three fields
(`undefined` and the empty string take the same branch), the layered
decryption inside `try`, the final `decrypted || null`, and `catch`
collapsing every thrown fault to `null` (`none`). -/
def decryptUrl (p : CryptoPrims) (cfg : Config) :
    Option EncryptedData → Option String
  | none => none
  | some ed =>
    if ed.data = "" ∨ ed.noise = "" ∨ ed.iv = "" then none
    else
      match decryptUrlE p cfg ed with
      | Except.error _ => none
      | Except.ok s => if s = "" then none else some s

/-- The three error kinds `createShortUrl` can throw. -/
inductive UrlError where
  | emptyInput
  | invalidFormat
  | tooLong
deriving DecidableEq

/-- `createShortUrl`: empty check, `new URL` validation, length check
against `MAX_URL_LENGTH`, then encryption and short-code generation. -/
def createShortUrl (p : CryptoPrims) (cfg : Config) (e : Entropy)
    (originalUrl : String) : Except UrlError (String × EncryptedData) :=
  if originalUrl = "" then Except.error UrlError.emptyInput
  else if ¬ p.isValidUrl originalUrl then Except.error UrlError.invalidFormat
  else if (originalUrl.length : Int) > MAX_URL_LENGTH then Except.error UrlError.tooLong
  else
    let encryptedData := encryptUrl p cfg e originalUrl
    let shortCode := p.nanoid cfg.urlLength
    Except.ok (shortCode, encryptedData)

/-- `generateShortCode()`: delegates to the external generator with the
configured length. -/
def generateShortCode (p : CryptoPrims) (cfg : Config) : String :=
  p.nanoid cfg.urlLength

/-- `decryptUrl` viewed as a transformer of the state it could reach: the
instance's configuration fields and the envelope object.  The method body
assigns to neither (the fields are `readonly` and the envelope is only
destructured), so the embedding returns both unchanged beside the
result. -/
def decryptUrlS (p : CryptoPrims) (cfg : Config) (input : Option EncryptedData) :
    Option String × Config × Option EncryptedData :=
  (decryptUrl p cfg input, cfg, input)

/-! ### Concrete instantiations of the external primitives

Used to witness the theorems below at evaluable inputs: a toy reversible
cipher (prepend a marker character; its inverse drops it), a constant
sine, and a replicate-based unique-ID generator. -/

/-- Drop the first character of a string. -/
def strTail (s : String) : String :=
  String.mk (s.toList.drop 1)

/-- Toy primitives: invertible marker-prefixing ciphers, constant sine,
and an `'a'`-replicating id generator. -/
def toyPrims : CryptoPrims where
  sin := fun _ => 0
  aesEncryptIv := fun m _ _ _ => String.mk ('E' :: m.toList)
  aesDecryptIv := fun c _ _ => Except.ok (strTail c)
  aesEncrypt := fun m _ _ => String.mk ('F' :: m.toList)
  aesDecrypt := fun c _ => Except.ok (strTail c)
  pbkdf2 := fun password salt _ => password ++ salt
  sha3 := fun s => s
  nanoid := fun n => String.mk (List.replicate n.toNat 'a')
  isValidUrl := fun _ => true

/-- A sample validated configuration (defaults with seed 42). -/
def cfg0 : Config := { saltRounds := 10, urlLength := 8, quantumSeed := 42 }

/-- The spec's example configuration: seed 42, saltRounds 10, code length 6. -/
def cfg6 : Config := { saltRounds := 10, urlLength := 6, quantumSeed := 42 }

/-- A sample per-call entropy record. -/
def ent0 : Entropy :=
  { t1 := 5, t2 := 5, t3 := 5, ivBytes := fun _ => 1,
    salt1 := "r1", salt2 := "r2", salt3 := "r3" }

/-- Entropy of a second call in the same millisecond as `ent0` (equal
time reads) with different random IV bytes and salts. -/
def ent1 : Entropy :=
  { t1 := 5, t2 := 5, t3 := 5, ivBytes := fun _ => 2,
    salt1 := "q1", salt2 := "q2", salt3 := "q3" }

/-- The spec's example URL. -/
def url0 : String := "https://example.com"

/-- Toy primitives whose URL validator rejects everything. -/
def toyPrimsReject : CryptoPrims := { toyPrims with isValidUrl := fun _ => false }

/-- Options record selecting code length 6 and leaving the rest absent. -/
def opts6 : ShortyQOptions :=
  { saltRounds := none, urlLength := some 6, quantumSeed := none }

/-- A 5000-character string, longer than `MAX_URL_LENGTH`. -/
def longUrl : String := String.mk (List.replicate 5000 'a')

instance instDecEqExcept {ε α : Type} [DecidableEq ε] [DecidableEq α] :
    DecidableEq (Except ε α) := fun a b =>
  match a, b with
  | Except.error x, Except.error y =>
    if h : x = y then Decidable.isTrue (by rw [h])
    else Decidable.isFalse (fun hc => h (Except.error.inj hc))
  | Except.error _, Except.ok _ => Decidable.isFalse (fun hc => Except.noConfusion hc)
  | Except.ok _, Except.error _ => Decidable.isFalse (fun hc => Except.noConfusion hc)
  | Except.ok x, Except.ok y =>
    if h : x = y then Decidable.isTrue (by rw [h])
    else Decidable.isFalse (fun hc => h (Except.ok.inj hc))

/-! ### Supporting lemmas -/

theorem toList_append (a b : String) : (a ++ b).toList = a.toList ++ b.toList :=
  String.data_append a b

theorem hexByte_length (b : Nat) : (hexByte b).length = 2 := rfl

theorem toHex_length (l : List Nat) : (toHex l).length = 2 * l.length := by
  induction l with
  | nil => rfl
  | cons b bs ih =>
    simp only [toHex, String.length_append, hexByte_length, ih, List.length_cons]
    ring

theorem generateQuantumNoiseBytes_length (sin : ℚ → ℚ) (seed t : Int) :
    (generateQuantumNoiseBytes sin seed t).length = 32 := by
  unfold generateQuantumNoiseBytes
  rw [List.length_map, List.length_range]

theorem generateQuantumNoise_length (sin : ℚ → ℚ) (seed t : Int) :
    (generateQuantumNoise sin seed t).length = 64 := by
  simp [generateQuantumNoise, toHex_length, generateQuantumNoiseBytes_length]

theorem ivHexOf_length (e : Entropy) : (ivHexOf e).length = 32 := by
  simp [ivHexOf, toHex_length]

theorem ne_empty_of_length_pos (s : String) (h : 0 < s.length) : s ≠ "" := by
  intro he
  rw [he] at h
  exact absurd h (by decide)

theorem strSlice_append3_left (a b c : String) (k : Nat) (ha : a.length = k) :
    strSlice (a ++ b ++ c) 0 k = a := by
  unfold strSlice
  simp only [String.toList, String.data_append, List.drop_zero, Nat.sub_zero,
    List.append_assoc]
  rw [List.take_left' ha]

theorem strSlice_append3_mid (a b c : String) (k : Nat)
    (ha : a.length = k) (hb : b.length = k) :
    strSlice (a ++ b ++ c) k (2 * k) = b := by
  unfold strSlice
  simp only [String.toList, String.data_append, List.append_assoc]
  rw [List.drop_left' ha]
  have h2 : 2 * k - k = k := by omega
  rw [h2, List.take_left' hb]

theorem strSlice_append3_right (a b c : String) (k : Nat)
    (ha : a.length = k) (hb : b.length = k) (hc : c.length = k) :
    strSlice (a ++ b ++ c) (2 * k) (3 * k) = c := by
  unfold strSlice
  simp only [String.toList, String.data_append]
  have ha' : a.data.length = k := ha
  have hb' : b.data.length = k := hb
  have hab : (a.data ++ b.data).length = 2 * k := by
    simp only [List.length_append]
    omega
  rw [List.drop_left' hab]
  have hc' : c.data.length = k := hc
  have h3 : c.data.length ≤ 3 * k - 2 * k := by omega
  rw [List.take_of_length_le h3]

/-- The noise field of an envelope is the concatenation of the three
noise blocks, in creation order. -/
theorem encryptUrl_noise (p : CryptoPrims) (cfg : Config) (e : Entropy) (url : String) :
    (encryptUrl p cfg e url).noise =
      generateQuantumNoise p.sin cfg.quantumSeed e.t1 ++
      generateQuantumNoise p.sin cfg.quantumSeed e.t2 ++
      generateQuantumNoise p.sin cfg.quantumSeed e.t3 := rfl

theorem encryptUrl_iv (p : CryptoPrims) (cfg : Config) (e : Entropy) (url : String) :
    (encryptUrl p cfg e url).iv = ivHexOf e := rfl

theorem encryptUrl_noise_length (p : CryptoPrims) (cfg : Config) (e : Entropy)
    (url : String) : (encryptUrl p cfg e url).noise.length = 192 := by
  rw [encryptUrl_noise]
  simp [String.length_append, generateQuantumNoise_length]

/-- The floor of the JavaScript remainder agrees with the mathematical
floor up to a multiple of the modulus. -/
theorem floor_jsRem (x : ℚ) :
    ⌊jsRem x 256⌋ = ⌊x⌋ - 256 * jsTrunc (x / 256) := by
  unfold jsRem
  have h : x - (256 : ℚ) * ((jsTrunc (x / 256) : Int) : ℚ) =
      x - (((256 * jsTrunc (x / 256) : Int) : ℚ)) := by
    push_cast
    ring
  rw [h, Int.floor_sub_int]

/-- The noise byte stored by the `Uint8Array` write is in 0..255 and is
the mathematical modulus of `⌊x⌋` by 256, for any real (rational) `x` —
also when `x` is negative. -/
theorem noiseByte_spec (x : ℚ) :
    noiseByte x < 256 ∧ (noiseByte x : Int) = ⌊x⌋ % 256 := by
  unfold noiseByte
  rw [floor_jsRem]
  constructor
  · omega
  · omega

theorem exceptBind_ok {α β ε : Type} (a : α) (f : α → Except ε β) :
    Bind.bind (Except.ok a) f = f a := rfl

/-- `decryptUrlE` with the `do`-chain written out as explicit binds. -/
theorem decryptUrlE_eq (p : CryptoPrims) (cfg : Config) (ed : EncryptedData) :
    decryptUrlE p cfg ed =
      Bind.bind
        (p.aesDecrypt ed.data
          (p.sha3 (strSlice ed.noise (2 * ed.noise.length / 3) ed.noise.length ++
            p.pbkdf2 (strSlice ed.noise (ed.noise.length / 3) (2 * ed.noise.length / 3))
              ed.iv cfg.saltRounds)))
        (fun decrypted3 =>
          Bind.bind
            (p.aesDecrypt decrypted3
              (p.pbkdf2 (strSlice ed.noise (ed.noise.length / 3) (2 * ed.noise.length / 3))
                ed.iv cfg.saltRounds))
            (fun decrypted2 =>
              Bind.bind
                (p.aesDecryptIv decrypted2 (strSlice ed.noise 0 (ed.noise.length / 3)) ed.iv)
                (fun decrypted1 => pure decrypted1))) := rfl

/-- The data field of an envelope, spelled out: three nested encryptions. -/
theorem encryptUrl_data (p : CryptoPrims) (cfg : Config) (e : Entropy) (url : String) :
    (encryptUrl p cfg e url).data =
      p.aesEncrypt
        (p.aesEncrypt
          (p.aesEncryptIv url (generateQuantumNoise p.sin cfg.quantumSeed e.t1)
            (ivHexOf e) e.salt1)
          (p.pbkdf2 (generateQuantumNoise p.sin cfg.quantumSeed e.t2) (ivHexOf e)
            cfg.saltRounds)
          e.salt2)
        (p.sha3 (generateQuantumNoise p.sin cfg.quantumSeed e.t3 ++
          p.pbkdf2 (generateQuantumNoise p.sin cfg.quantumSeed e.t2) (ivHexOf e)
            cfg.saltRounds))
        e.salt3 := rfl

/-- The first third of the noise field is the layer-1 noise block. -/
theorem encryptUrl_slice1 (p : CryptoPrims) (cfg : Config) (e : Entropy) (url : String) :
    strSlice (encryptUrl p cfg e url).noise 0 64 =
      generateQuantumNoise p.sin cfg.quantumSeed e.t1 := by
  rw [encryptUrl_noise]
  exact strSlice_append3_left _ _ _ 64 (generateQuantumNoise_length p.sin cfg.quantumSeed e.t1)

/-- The middle third of the noise field is the layer-2 noise block. -/
theorem encryptUrl_slice2 (p : CryptoPrims) (cfg : Config) (e : Entropy) (url : String) :
    strSlice (encryptUrl p cfg e url).noise 64 128 =
      generateQuantumNoise p.sin cfg.quantumSeed e.t2 := by
  rw [encryptUrl_noise]
  have h := strSlice_append3_mid (generateQuantumNoise p.sin cfg.quantumSeed e.t1)
    (generateQuantumNoise p.sin cfg.quantumSeed e.t2)
    (generateQuantumNoise p.sin cfg.quantumSeed e.t3) 64
    (generateQuantumNoise_length p.sin cfg.quantumSeed e.t1)
    (generateQuantumNoise_length p.sin cfg.quantumSeed e.t2)
  norm_num at h
  exact h

/-- The last third of the noise field is the layer-3 noise block. -/
theorem encryptUrl_slice3 (p : CryptoPrims) (cfg : Config) (e : Entropy) (url : String) :
    strSlice (encryptUrl p cfg e url).noise 128 192 =
      generateQuantumNoise p.sin cfg.quantumSeed e.t3 := by
  rw [encryptUrl_noise]
  have h := strSlice_append3_right (generateQuantumNoise p.sin cfg.quantumSeed e.t1)
    (generateQuantumNoise p.sin cfg.quantumSeed e.t2)
    (generateQuantumNoise p.sin cfg.quantumSeed e.t3) 64
    (generateQuantumNoise_length p.sin cfg.quantumSeed e.t1)
    (generateQuantumNoise_length p.sin cfg.quantumSeed e.t2)
    (generateQuantumNoise_length p.sin cfg.quantumSeed e.t3)
  norm_num at h
  exact h

/-- Decryption of a fresh envelope recovers the plaintext, given that the
opaque AES primitives invert each other. -/
theorem decryptUrlE_encryptUrl (p : CryptoPrims) (cfg : Config) (e : Entropy) (url : String)
    (hIv : ∀ m pass iv salt, p.aesDecryptIv (p.aesEncryptIv m pass iv salt) pass iv =
      Except.ok m)
    (hAes : ∀ m pass salt, p.aesDecrypt (p.aesEncrypt m pass salt) pass = Except.ok m) :
    decryptUrlE p cfg (encryptUrl p cfg e url) = Except.ok url := by
  have hlen192 := encryptUrl_noise_length p cfg e url
  have hs1 := encryptUrl_slice1 p cfg e url
  have hs2 := encryptUrl_slice2 p cfg e url
  have hs3 := encryptUrl_slice3 p cfg e url
  rw [decryptUrlE_eq, hlen192]
  rw [show (192 : Nat) / 3 = 64 from by norm_num,
    show 2 * 192 / 3 = 128 from by norm_num]
  rw [hs1, hs2, hs3, encryptUrl_data, encryptUrl_iv]
  rw [hAes, exceptBind_ok, hAes, exceptBind_ok, hIv, exceptBind_ok]
  rfl

theorem strCons_ne_empty (c : Char) (l : List Char) : String.mk (c :: l) ≠ "" := by
  intro h
  have hlen := congrArg String.length h
  simp [String.length] at hlen

theorem longUrl_length : longUrl.length = 5000 := by
  unfold longUrl
  rw [String.length_mk, List.length_replicate]

/-! ### Claim theorems -/

/-- C1: for every non-empty URL accepted by `createShortUrl` (valid per
the external validator, length at most `MAX_URL_LENGTH` = 4096),
decrypting the envelope produced by encrypting it with the same engine
configuration returns exactly the URL, provided the opaque AES
primitives invert each other (the layer-key derivations on the decrypt
path then reproduce the encrypt path exactly) and produce non-empty
ciphertexts. -/
theorem shortyq_c1_roundtrip (p : CryptoPrims) (cfg : Config) (e : Entropy) (url : String)
    (hIv : ∀ m pass iv salt, p.aesDecryptIv (p.aesEncryptIv m pass iv salt) pass iv =
      Except.ok m)
    (hAes : ∀ m pass salt, p.aesDecrypt (p.aesEncrypt m pass salt) pass = Except.ok m)
    (hNe : ∀ m pass salt, p.aesEncrypt m pass salt ≠ "")
    (hurl : url ≠ "") (hvalid : p.isValidUrl url = true)
    (hlen : (url.length : Int) ≤ MAX_URL_LENGTH) :
    createShortUrl p cfg e url =
      Except.ok (p.nanoid cfg.urlLength, encryptUrl p cfg e url) ∧
    decryptUrl p cfg (some (encryptUrl p cfg e url)) = some url := by
  constructor
  · unfold createShortUrl
    rw [if_neg hurl, if_neg (by simp [hvalid]), if_neg (not_lt.mpr hlen)]
  · have hguard : ¬((encryptUrl p cfg e url).data = "" ∨
        (encryptUrl p cfg e url).noise = "" ∨ (encryptUrl p cfg e url).iv = "") := by
      push_neg
      refine ⟨?_, ?_, ?_⟩
      · rw [encryptUrl_data]
        exact hNe _ _ _
      · exact ne_empty_of_length_pos _ (by rw [encryptUrl_noise_length]; norm_num)
      · exact ne_empty_of_length_pos _ (by rw [encryptUrl_iv, ivHexOf_length]; norm_num)
    simp only [decryptUrl]
    rw [if_neg hguard, decryptUrlE_encryptUrl p cfg e url hIv hAes]
    show (if url = "" then (none : Option String) else some url) = some url
    rw [if_neg hurl]

/-- Witness for C1 at the spec's example: toy invertible primitives,
seed 42 / saltRounds 10 / codeLength 6, URL `https://example.com`. -/
theorem shortyq_c1_roundtrip_witness :
    createShortUrl toyPrims cfg6 ent0 url0 =
      Except.ok (toyPrims.nanoid cfg6.urlLength, encryptUrl toyPrims cfg6 ent0 url0) ∧
    decryptUrl toyPrims cfg6 (some (encryptUrl toyPrims cfg6 ent0 url0)) = some url0 :=
  shortyq_c1_roundtrip toyPrims cfg6 ent0 url0
    (fun _ _ _ _ => rfl) (fun _ _ _ => rfl)
    (fun m _ _ => strCons_ne_empty 'F' m.toList)
    (by decide) rfl (by decide)

/-- C2: `decryptUrl` is total — in this embedding it is a function into
`Option String`, every thrown primitive fault being absorbed by the
`catch` branch (`Except.error` maps to `none`).  A `null` envelope
returns `none`; an envelope with a missing or empty `data`, `noise` or
`iv` field (both falsy in the source guard) returns `none`; and every
successful result is a non-empty string (the final `decrypted || null`). -/
theorem shortyq_c2_total (p : CryptoPrims) (cfg : Config) :
    decryptUrl p cfg none = none ∧
    (∀ ed : EncryptedData, ed.data = "" ∨ ed.noise = "" ∨ ed.iv = "" →
      decryptUrl p cfg (some ed) = none) ∧
    (∀ (input : Option EncryptedData) (s : String),
      decryptUrl p cfg input = some s → s ≠ "") := by
  refine ⟨rfl, ?_, ?_⟩
  · intro ed h
    simp only [decryptUrl]
    rw [if_pos h]
  · intro input s hsome
    cases input with
    | none => exact absurd hsome (by simp [decryptUrl])
    | some ed =>
      simp only [decryptUrl] at hsome
      split at hsome
      · exact absurd hsome (by simp)
      · split at hsome
        · exact absurd hsome (by simp)
        · split at hsome
          · exact absurd hsome (by simp)
          · rename_i ht
            obtain rfl : _ = s := Option.some.inj hsome
            exact ht

/-- Witness for C2: a null envelope, an envelope with an empty `data`
field, and a successful decryption, at the toy primitives. -/
theorem shortyq_c2_total_witness :
    decryptUrl toyPrims cfg0 none = none ∧
    decryptUrl toyPrims cfg0 (some { data := "", noise := "x", iv := "y" }) = none ∧
    url0 ≠ "" :=
  ⟨(shortyq_c2_total toyPrims cfg0).1,
   (shortyq_c2_total toyPrims cfg0).2.1 { data := "", noise := "x", iv := "y" } (Or.inl rfl),
   (shortyq_c2_total toyPrims cfg6).2.2 (some (encryptUrl toyPrims cfg6 ent0 url0)) url0
     (by decide)⟩

/-- C3 (code bug): the noise field is a function of the quantum seed and
the three `Date.now()` reads only, so two encrypt calls whose time reads
all land in the same millisecond — here `ent0` and `ent1`, which draw
different random IV bytes (the two `iv` fields differ) and different
salts — produce byte-for-byte identical noise fields, contradicting the
guaranteed pairwise difference of all three envelope fields. -/
theorem shortyq_c3_same_ms_noise_collision :
    (encryptUrl toyPrims cfg0 ent0 url0).iv ≠ (encryptUrl toyPrims cfg0 ent1 url0).iv ∧
    (encryptUrl toyPrims cfg0 ent0 url0).noise =
      (encryptUrl toyPrims cfg0 ent1 url0).noise := by
  refine ⟨by decide, rfl⟩

/-- C4 counterexample: `codeLength = 0` lies outside [4, 100], yet
construction succeeds — `options.urlLength || 8` treats the falsy `0` as
absent and silently substitutes the default 8. -/
theorem shortyq_c4_counterexample :
    mkShortyQ { saltRounds := none, urlLength := some 0, quantumSeed := none } 7 =
      Except.ok { saltRounds := 10, urlLength := 8, quantumSeed := 7 } := by
  decide

/-- C4 amended: for every integer `codeLength` outside [4, 100] other
than the falsy `0`, construction fails with the matching error message
("at least 4" below the range, "cannot exceed 100" above); `codeLength =
0` and an absent `codeLength` are silently replaced by the default 8;
`codeLength = 4` and `codeLength = 100` succeed. -/
theorem shortyq_c4_range_check (r : Int) :
    (∀ (s q : Option Int) (n : Int), n ≠ 0 → n < 4 →
      mkShortyQ { saltRounds := s, urlLength := some n, quantumSeed := q } r =
        Except.error "URL length must be at least 4 characters") ∧
    (∀ (s q : Option Int) (n : Int), n > 100 →
      mkShortyQ { saltRounds := s, urlLength := some n, quantumSeed := q } r =
        Except.error "URL length cannot exceed 100 characters") ∧
    (∀ s q, mkShortyQ { saltRounds := s, urlLength := some 0, quantumSeed := q } r =
      Except.ok { saltRounds := jsOrInt s 10, urlLength := 8,
                  quantumSeed := jsOrInt q r }) ∧
    (∀ s q, mkShortyQ { saltRounds := s, urlLength := none, quantumSeed := q } r =
      Except.ok { saltRounds := jsOrInt s 10, urlLength := 8,
                  quantumSeed := jsOrInt q r }) ∧
    (∀ s q, mkShortyQ { saltRounds := s, urlLength := some 4, quantumSeed := q } r =
      Except.ok { saltRounds := jsOrInt s 10, urlLength := 4,
                  quantumSeed := jsOrInt q r }) ∧
    (∀ s q, mkShortyQ { saltRounds := s, urlLength := some 100, quantumSeed := q } r =
      Except.ok { saltRounds := jsOrInt s 10, urlLength := 100,
                  quantumSeed := jsOrInt q r }) := by
  refine ⟨?_, ?_, ?_, ?_, ?_, ?_⟩
  · intro s q n hn0 h4
    simp only [mkShortyQ, jsOrInt, MIN_URL_LENGTH]
    rw [if_neg hn0, if_pos h4]
  · intro s q n h100
    have hn0 : n ≠ 0 := by omega
    simp only [mkShortyQ, jsOrInt, MIN_URL_LENGTH]
    rw [if_neg hn0, if_neg (by omega), if_pos h100]
  · intro s q
    simp only [mkShortyQ, jsOrInt, MIN_URL_LENGTH]
    norm_num
  · intro s q
    simp only [mkShortyQ, jsOrInt, MIN_URL_LENGTH]
    norm_num
  · intro s q
    simp only [mkShortyQ, jsOrInt, MIN_URL_LENGTH]
    norm_num
  · intro s q
    simp only [mkShortyQ, jsOrInt, MIN_URL_LENGTH]
    norm_num

/-- Witness for the amended C4 at the spec's boundary inputs 3, 101, 4. -/
theorem shortyq_c4_range_check_witness :
    mkShortyQ { saltRounds := none, urlLength := some 3, quantumSeed := none } 7 =
      Except.error "URL length must be at least 4 characters" ∧
    mkShortyQ { saltRounds := none, urlLength := some 101, quantumSeed := none } 7 =
      Except.error "URL length cannot exceed 100 characters" ∧
    mkShortyQ { saltRounds := none, urlLength := some 4, quantumSeed := none } 7 =
      Except.ok { saltRounds := 10, urlLength := 4, quantumSeed := 7 } :=
  ⟨(shortyq_c4_range_check 7).1 none none 3 (by decide) (by decide),
   (shortyq_c4_range_check 7).2.1 none none 101 (by decide),
   (shortyq_c4_range_check 7).2.2.2.2.1 none none⟩

/-- C5: `createShortUrl` checks emptiness, then syntactic validity per
the external validator, then the 4096-character bound, in that order; the
first failing check determines the error kind (an invalid URL fails
`invalidFormat` whatever its length), and encryption runs exactly when
all three pass. -/
theorem shortyq_c5_validation (p : CryptoPrims) (cfg : Config) (e : Entropy)
    (url : String) :
    (url = "" → createShortUrl p cfg e url = Except.error UrlError.emptyInput) ∧
    (url ≠ "" → p.isValidUrl url = false →
      createShortUrl p cfg e url = Except.error UrlError.invalidFormat) ∧
    (url ≠ "" → p.isValidUrl url = true → (url.length : Int) > MAX_URL_LENGTH →
      createShortUrl p cfg e url = Except.error UrlError.tooLong) ∧
    (url ≠ "" → p.isValidUrl url = true → (url.length : Int) ≤ MAX_URL_LENGTH →
      createShortUrl p cfg e url =
        Except.ok (p.nanoid cfg.urlLength, encryptUrl p cfg e url)) := by
  refine ⟨?_, ?_, ?_, ?_⟩
  · intro h
    unfold createShortUrl
    rw [if_pos h]
  · intro h hv
    unfold createShortUrl
    rw [if_neg h, if_pos (by simp [hv])]
  · intro h hv hl
    unfold createShortUrl
    rw [if_neg h, if_neg (by simp [hv]), if_pos hl]
  · intro h hv hl
    unfold createShortUrl
    rw [if_neg h, if_neg (by simp [hv]), if_neg (not_lt.mpr hl)]

/-- Witness for C5: the empty URL, a rejected URL, a 5000-character URL,
and an accepted URL, at the toy primitives. -/
theorem shortyq_c5_validation_witness :
    createShortUrl toyPrims cfg0 ent0 "" = Except.error UrlError.emptyInput ∧
    createShortUrl toyPrimsReject cfg0 ent0 "not-a-valid-url" =
      Except.error UrlError.invalidFormat ∧
    createShortUrl toyPrims cfg0 ent0 longUrl = Except.error UrlError.tooLong ∧
    createShortUrl toyPrims cfg0 ent0 url0 =
      Except.ok (toyPrims.nanoid cfg0.urlLength, encryptUrl toyPrims cfg0 ent0 url0) :=
  ⟨(shortyq_c5_validation toyPrims cfg0 ent0 "").1 rfl,
   (shortyq_c5_validation toyPrimsReject cfg0 ent0 "not-a-valid-url").2.1 (by decide) rfl,
   (shortyq_c5_validation toyPrims cfg0 ent0 longUrl).2.2.1
     (ne_empty_of_length_pos longUrl (by rw [longUrl_length]; norm_num)) rfl
     (by rw [longUrl_length]; norm_num [MAX_URL_LENGTH]),
   (shortyq_c5_validation toyPrims cfg0 ent0 url0).2.2.2 (by decide) rfl (by decide)⟩

/-- C6: every byte emitted by the noise generator is in 0..255 and equals
the mathematical modulus `⌊sin(seed * i + t) * 10000⌋ mod 256` — the
source's `%` remainder is applied before `Math.floor`, and the
`Uint8Array` store wraps the possibly negative result modulo 2^8, which
together coincide with the mathematical modulus of the floor for every
real argument, negative sine products included. -/
theorem shortyq_c6_noise_byte_mod (sin : ℚ → ℚ) (seed t : Int) (i : Nat)
    (hi : i < 32) :
    ∃ b : Nat,
      (generateQuantumNoiseBytes sin seed t)[i]? = some b ∧
      b < 256 ∧
      (b : Int) = ⌊sin (((seed * (i : Int) + t : Int) : ℚ)) * 10000⌋ % 256 := by
  refine ⟨noiseByte (sin (((seed * (i : Int) + t : Int) : ℚ)) * 10000), ?_,
    (noiseByte_spec _).1, (noiseByte_spec _).2⟩
  unfold generateQuantumNoiseBytes
  simp [List.getElem?_range, hi]

/-- Witness for C6 at the constant-zero sine, seed 42, time 5, index 3. -/
theorem shortyq_c6_noise_byte_mod_witness :
    ∃ b : Nat,
      (generateQuantumNoiseBytes (fun _ => (0 : ℚ)) 42 5)[3]? = some b ∧
      b < 256 ∧
      (b : Int) =
        ⌊(fun _ => (0 : ℚ)) (((42 * ((3 : Nat) : Int) + 5 : Int) : ℚ)) * 10000⌋ % 256 :=
  shortyq_c6_noise_byte_mod (fun _ => 0) 42 5 3 (by decide)

/-- C7: every envelope is structurally well-formed — each noise block is
the hex encoding of exactly 32 bytes (64 hex characters), the noise field
has length 192 (an exact multiple of 3) whose three equal thirds are
the blocks in creation order, and the iv field is the hex encoding of
exactly 16 bytes (32 hex characters). -/
theorem shortyq_c7_envelope_shape (p : CryptoPrims) (cfg : Config) (e : Entropy)
    (url : String) :
    (generateQuantumNoiseBytes p.sin cfg.quantumSeed e.t1).length = 32 ∧
    (generateQuantumNoise p.sin cfg.quantumSeed e.t1).length = 64 ∧
    (generateQuantumNoise p.sin cfg.quantumSeed e.t2).length = 64 ∧
    (generateQuantumNoise p.sin cfg.quantumSeed e.t3).length = 64 ∧
    (encryptUrl p cfg e url).noise.length = 192 ∧
    strSlice (encryptUrl p cfg e url).noise 0 64 =
      generateQuantumNoise p.sin cfg.quantumSeed e.t1 ∧
    strSlice (encryptUrl p cfg e url).noise 64 128 =
      generateQuantumNoise p.sin cfg.quantumSeed e.t2 ∧
    strSlice (encryptUrl p cfg e url).noise 128 192 =
      generateQuantumNoise p.sin cfg.quantumSeed e.t3 ∧
    (encryptUrl p cfg e url).iv.length = 32 :=
  ⟨generateQuantumNoiseBytes_length p.sin cfg.quantumSeed e.t1,
   generateQuantumNoise_length p.sin cfg.quantumSeed e.t1,
   generateQuantumNoise_length p.sin cfg.quantumSeed e.t2,
   generateQuantumNoise_length p.sin cfg.quantumSeed e.t3,
   encryptUrl_noise_length p cfg e url,
   encryptUrl_slice1 p cfg e url,
   encryptUrl_slice2 p cfg e url,
   encryptUrl_slice3 p cfg e url,
   by rw [encryptUrl_iv]; exact ivHexOf_length e⟩

/-- C8: on every successful `createShortUrl` call of a validly
constructed engine, the short code is the external generator's output of
the configured length: exactly `urlLength` characters (default 8 when the
option is absent), drawn from whatever alphabet the external generator
guarantees; with `codeLength = 6` the short code has length 6. -/
theorem shortyq_c8_shortcode (p : CryptoPrims) (opts : ShortyQOptions) (r : Int)
    (cfg : Config) (e : Entropy) (url shortCode : String) (ed : EncryptedData)
    (A : Char → Prop)
    (hcfg : mkShortyQ opts r = Except.ok cfg)
    (hnano : ∀ n : Int, (p.nanoid n).length = n.toNat ∧ ∀ c ∈ (p.nanoid n).toList, A c)
    (hok : createShortUrl p cfg e url = Except.ok (shortCode, ed)) :
    ((shortCode.length : Int) = cfg.urlLength ∧ ∀ c ∈ shortCode.toList, A c) ∧
    (opts.urlLength = some 6 → shortCode.length = 6) ∧
    (opts.urlLength = none → shortCode.length = 8) := by
  have hcode : shortCode = p.nanoid cfg.urlLength := by
    unfold createShortUrl at hok
    split at hok
    · exact absurd hok (by simp)
    · split at hok
      · exact absurd hok (by simp)
      · split at hok
        · exact absurd hok (by simp)
        · have := Except.ok.inj hok
          exact (congrArg Prod.fst this).symm
  have hrange : cfg.urlLength = jsOrInt opts.urlLength 8 ∧
      MIN_URL_LENGTH ≤ cfg.urlLength ∧ cfg.urlLength ≤ 100 := by
    simp only [mkShortyQ] at hcfg
    split at hcfg
    · exact absurd hcfg (by simp)
    · split at hcfg
      · exact absurd hcfg (by simp)
      · rename_i hlo hhi
        have heq := Except.ok.inj hcfg
        subst heq
        refine ⟨rfl, ?_, ?_⟩
        · show MIN_URL_LENGTH ≤ jsOrInt opts.urlLength 8
          omega
        · show jsOrInt opts.urlLength 8 ≤ 100
          omega
  have hlen : shortCode.length = cfg.urlLength.toNat := by
    rw [hcode]
    exact (hnano cfg.urlLength).1
  have hmin : (4 : Int) ≤ cfg.urlLength := by
    have := hrange.2.1
    simpa [MIN_URL_LENGTH] using this
  refine ⟨⟨by rw [hlen]; omega, ?_⟩, ?_, ?_⟩
  · rw [hcode]
    exact (hnano cfg.urlLength).2
  · intro h6
    have : cfg.urlLength = 6 := by
      rw [hrange.1, h6]
      rfl
    rw [hlen, this]
    rfl
  · intro h8
    have : cfg.urlLength = 8 := by
      rw [hrange.1, h8]
      rfl
    rw [hlen, this]
    rfl

/-- Witness for C8 at the toy generator (`n` copies of `'a'`), options
selecting code length 6, seed entropy `ent0` and the example URL. -/
theorem shortyq_c8_shortcode_witness :
    (((toyPrims.nanoid 6).length : Int) = (6 : Int) ∧
      ∀ c ∈ (toyPrims.nanoid 6).toList, c = 'a') ∧
    (opts6.urlLength = some 6 → (toyPrims.nanoid 6).length = 6) ∧
    (opts6.urlLength = none → (toyPrims.nanoid 6).length = 8) :=
  shortyq_c8_shortcode toyPrims opts6 7
    { saltRounds := 10, urlLength := 6, quantumSeed := 7 } ent0 url0
    (toyPrims.nanoid 6)
    (encryptUrl toyPrims { saltRounds := 10, urlLength := 6, quantumSeed := 7 } ent0 url0)
    (fun c => c = 'a')
    (by decide)
    (fun n => ⟨by simp [toyPrims, String.length_mk, List.length_replicate],
      fun c hc => by
        simp only [toyPrims] at hc
        exact List.eq_of_mem_replicate hc⟩)
    rfl

/-- C9: `decryptUrl` as a state transformer returns the engine
configuration and the envelope unchanged (the source's fields are
`readonly` and the method only destructures its argument), and re-running
it on the returned state yields the same result — decryption is a pure,
repeatable read. -/
theorem shortyq_c9_pure_read (p : CryptoPrims) (cfg : Config)
    (input : Option EncryptedData) :
    (decryptUrlS p cfg input).2.1 = cfg ∧
    (decryptUrlS p cfg input).2.2 = input ∧
    (decryptUrlS p (decryptUrlS p cfg input).2.1 (decryptUrlS p cfg input).2.2).1 =
      (decryptUrlS p cfg input).1 :=
  ⟨rfl, rfl, rfl⟩

/-- C10: the three noise blocks of one encrypt call are generated from
the same quantum seed and one `Date.now()` read each; whenever the three
reads return the same millisecond, the three thirds of the envelope's
noise field are identical strings. -/
theorem shortyq_c10_equal_thirds (p : CryptoPrims) (cfg : Config) (e : Entropy)
    (url : String) (h12 : e.t1 = e.t2) (h23 : e.t2 = e.t3) :
    strSlice (encryptUrl p cfg e url).noise 0 64 =
      strSlice (encryptUrl p cfg e url).noise 64 128 ∧
    strSlice (encryptUrl p cfg e url).noise 64 128 =
      strSlice (encryptUrl p cfg e url).noise 128 192 := by
  rw [encryptUrl_slice1, encryptUrl_slice2, encryptUrl_slice3, h12, h23]
  exact ⟨rfl, rfl⟩

/-- Witness for C10 at `ent0`, whose three time reads are all 5. -/
theorem shortyq_c10_equal_thirds_witness :
    strSlice (encryptUrl toyPrims cfg0 ent0 url0).noise 0 64 =
      strSlice (encryptUrl toyPrims cfg0 ent0 url0).noise 64 128 ∧
    strSlice (encryptUrl toyPrims cfg0 ent0 url0).noise 64 128 =
      strSlice (encryptUrl toyPrims cfg0 ent0 url0).noise 128 192 :=
  shortyq_c10_equal_thirds toyPrims cfg0 ent0 url0 rfl rfl

end ShortyQ
